import Mathlib

/-!
# Verification of the atproto scam/spam detector core

Shallow embedding of the detection-and-decision pipeline of the
`atproto-scam-detector` repository:

* the two-tier TTL ignore cache (`src/modules/memDatabase.ts` and the
  sqlite-backed `database.ts`),
* the lexical fast-path matcher (`src/modules/scamDetection.ts`,
  `updateScamTerms` / `findScamTerm`),
* the classification dispatcher (`processScamMessage` /
  `handleScamClassification`),
* the windowed duplicate aggregator (`processBufferedMessages`, the
  update-then-compare variant adopted by the specification).

JavaScript `Map` objects are modelled by insertion-ordered association
lists; `Date.now()` is an explicit `now : Nat` parameter (milliseconds);
fallible external calls (the classifier, `bot.label`) are modelled by an
explicit result value or a success oracle, and every `try`/`catch` in the
source becomes a branch on that oracle.
-/

namespace ScamDetector

/-! ## Association lists with JavaScript `Map` semantics

`Map.get` returns the value of the first (unique) matching key;
`Map.set` overwrites in place, keeping the key's original insertion
position, and appends unknown keys at the end; `Map.delete` removes the
key.  Keys are strings throughout the source. -/

def alistGet {α : Type} (l : List (String × α)) (k : String) : Option α :=
  match l with
  | [] => none
  | p :: rest => if p.1 == k then some p.2 else alistGet rest k

def alistGetD {α : Type} (l : List (String × α)) (k : String) (d : α) : α :=
  (alistGet l k).getD d

/-- `Map.set`: overwrite the (unique) existing key in place, append an
unknown key at the end — insertion order is preserved either way. -/
def alistSet {α : Type} (l : List (String × α)) (k : String) (v : α) :
    List (String × α) :=
  match l with
  | [] => [(k, v)]
  | p :: rest => if p.1 == k then (k, v) :: rest else p :: alistSet rest k v

/-- `Map.delete`. -/
def alistErase {α : Type} (l : List (String × α)) (k : String) :
    List (String × α) :=
  match l with
  | [] => []
  | p :: rest => if p.1 == k then alistErase rest k else p :: alistErase rest k

/-! ## TTL ignore cache, ephemeral tier (`src/modules/memDatabase.ts`)

`inMemoryIgnoreList : Map<string, number>` maps a handle to its absolute
expiration time in milliseconds.  `Date.now()` is the `now` parameter. -/

/-- `periodDays * 24 * 60 * 60 * 1000`. -/
def msPerDay : Nat := 24 * 60 * 60 * 1000

abbrev MemCache := List (String × Nat)

/-- `isHandleInMemoryIgnored` (`memDatabase.ts`): absent handle gives
`false`; a present handle whose expiration lies strictly in the past is
deleted (the returned cache models that side effect) and gives `false`;
otherwise `true`. -/
def isHandleInMemoryIgnored (now : Nat) (m : MemCache) (handle : String) :
    Bool × MemCache :=
  match alistGet m handle with
  | none => (false, m)
  | some expirationTime =>
    if expirationTime < now then (false, alistErase m handle)
    else (true, m)

/-- `addHandleToMemoryIgnoreList` (`memDatabase.ts`): upsert with
`expirationTime = Date.now() + periodDays * 24 * 60 * 60 * 1000`. -/
def addHandleToMemoryIgnoreList (now : Nat) (m : MemCache) (did : String)
    (periodDays : Nat) : MemCache :=
  alistSet m did (now + periodDays * msPerDay)

/-! ## TTL ignore cache, durable tier (`database.ts`)

The sqlite table `ignore_handles (handle TEXT PRIMARY KEY,
expiration_time INTEGER)` is a key/value map; the module-level `db`
handle may be uninitialised (`null`), modelled with `Option`. -/

abbrev DbMap := List (String × Nat)
abbrev DbState := Option DbMap

/-- `addHandleToIgnoreList` (`database.ts`): no-op on an uninitialised
database (`if (!db) return`), otherwise `INSERT OR REPLACE` with
`expirationTime = Date.now() + periodDays * 24 * 60 * 60 * 1000`. -/
def addHandleToIgnoreList (now : Nat) (db : DbState) (handle : String)
    (periodDays : Nat) : DbState :=
  match db with
  | none => none
  | some m => some (alistSet m handle (now + periodDays * msPerDay))

/-- `isHandleIgnored` (`database.ts`): `false` on an uninitialised
database or an absent row; an expired row is deleted (side effect in the
returned state) and gives `false`; otherwise `true`. -/
def isHandleIgnored (now : Nat) (db : DbState) (handle : String) :
    Bool × DbState :=
  match db with
  | none => (false, none)
  | some m =>
    match alistGet m handle with
    | none => (false, some m)
    | some expirationTime =>
      if expirationTime < now then (false, some (alistErase m handle))
      else (true, some m)

/-! ## Lexical fast-path matcher (`src/modules/scamDetection.ts`)

`updateScamTerms` escapes each (trimmed) term so it is matched
literally, joins them with `|` and compiles
`new RegExp("\\b(" ++ joined ++ ")\\b", "i")`.  `findScamTerm` runs that
regex against `text.toLowerCase()` and returns `match[0]` (the matched
substring) or `null`.  The model implements the semantics of that
pattern directly: leftmost position first, alternatives in list order at
each position, whole-word via `\b` on both sides.  An empty term list
yields the pattern `\b()\b` — a single empty alternative. -/

/-- JavaScript `\w`: `[A-Za-z0-9_]`. -/
def isWordChar (c : Char) : Bool :=
  c.isAlphanum || c == '_'

/-- `String.prototype.trim`: strip leading and trailing whitespace
(working on the character list of the string). -/
def trimChars (l : List Char) : List Char :=
  ((l.dropWhile Char.isWhitespace).reverse.dropWhile
    Char.isWhitespace).reverse

def isWordAt (s : List Char) (i : Nat) : Bool :=
  match s.get? i with
  | some c => isWordChar c
  | none => false

/-- `\b` holds at position `p` iff exactly one of the adjacent
characters is a word character (positions outside the string count as
non-word). -/
def wordBoundary (s : List Char) (p : Nat) : Bool :=
  (if p = 0 then false else isWordAt s (p - 1)) != isWordAt s p

/-- The literal alternative `t` matches at position `p` of `s` as a
whole word: `\b`, the characters of `t`, `\b`. -/
def matchTermAt (s : List Char) (p : Nat) (t : List Char) : Bool :=
  wordBoundary s p && wordBoundary s (p + t.length) &&
    ((s.drop p).take t.length == t)

/-- `[...].join("|")` on an empty list produces the empty pattern, i.e.
one empty alternative; otherwise each list element is one alternative. -/
def alternatives (terms : List (List Char)) : List (List Char) :=
  if terms.isEmpty then [[]] else terms

/-- First match: positions left to right, alternatives in order. -/
def scanMatch (s : List Char) (alts : List (List Char)) :
    Option (List Char) :=
  (List.range (s.length + 1)).findSome?
    (fun p => alts.find? (fun t => matchTermAt s p t))

/-- The compiled alternation of `updateScamTerms`: terms are trimmed
(`term.trim()`), escaped (hence literal), and matched case-insensitively
(modelled by lowering both sides). -/
def compiledAlternatives (terms : List String) : List (List Char) :=
  (alternatives (terms.map (fun t => trimChars t.data))).map
    (fun t => t.map Char.toLower)

/-- `findScamTerm` (`scamDetection.ts`): first whole-word occurrence of
any term in `text.toLowerCase()`, returning the matched substring. -/
def findScamTerm (terms : List String) (text : String) : Option String :=
  (scanMatch (text.data.map Char.toLower) (compiledAlternatives terms)).map
    (fun t => String.mk t)

/-! ## Classification dispatcher (`scamDetection.ts`) -/

/-- `bot.label`'s `reference` argument: either a specific post
(`{uri, cid}`) or an account (`{did}`). -/
inductive LabelRef
  | post (uri : String) (cid : Option String)
  | account (did : String)
deriving DecidableEq

/-- One `bot.label` attempt (the comment string is irrelevant to the
claims and omitted). -/
structure LabelAction where
  ref : LabelRef
  labels : List String
deriving DecidableEq

/-- External collaborators of `processScamMessage`:
`resolveDidToHandle`, the static ignore array (`getIgnoreArray`), and
`evaluateWithOpenAI`.  The classifier returns `false` on a failed API
call (modelled `none`) and the trimmed lowercase verdict string
otherwise (`some v`). -/
structure ScamEnv where
  resolveHandle : String → String
  staticIgnore : List String
  classifier : String → Option String

/-- `applyLabel`'s reference: `cid ? { uri, cid } :
{ did: await resolveDidToHandle(handle) }`. -/
def applyLabelRef (env : ScamEnv) (handle uri : String)
    (cid : Option String) : LabelRef :=
  match cid with
  | some c => LabelRef.post uri (some c)
  | none => LabelRef.account (env.resolveHandle handle)

/-- `handleScamClassification` (`scamDetection.ts`): the switch on the
classifier verdict.  A failed classification (`false`, modelled `none`)
and any unrecognized verdict both take the `default` branch, which
applies no label and adds a 1-day durable ignore entry.  Label-call
failures are caught inside `applyLabel`, so the recorded action is the
attempt. -/
def handleScamClassification (env : ScamEnv) (now : Nat) (db : DbState)
    (classification : Option String) (handle uri : String)
    (cid : Option String) : DbState × List LabelAction :=
  let lbl := fun name => LabelAction.mk (applyLabelRef env handle uri cid) [name]
  match classification with
  | some "scam" =>
    (addHandleToIgnoreList now db handle 7, [lbl "potential-scam"])
  | some "shilling-crypto" =>
    (addHandleToIgnoreList now db handle 7, [lbl "shilling-crypto"])
  | some "fomo-inducer" => (db, [lbl "fomo-inducer"])
  | some "potential" => (db, [lbl "potential-scam"])
  | some "bot-activity" =>
    (addHandleToIgnoreList now db handle 30, [lbl "bot-activity"])
  | _ => (addHandleToIgnoreList now db handle 1, [])

/-- `processScamMessage` (`scamDetection.ts`): fast-path match first
(`if (!scamTerm) return` — both `null` and the falsy empty string
stop), then the static ignore array, then the durable ignore cache
(whose lazy eviction may update the store), then the classifier on the
first 100 characters, then the dispatch switch.  Returns the resulting
durable-store state and the label attempts. -/
def processScamMessage (terms : List String) (env : ScamEnv) (now : Nat)
    (db : DbState) (repoDid text path : String) (cid : Option String) :
    DbState × List LabelAction :=
  match findScamTerm terms text with
  | none => (db, [])
  | some scamTerm =>
    if scamTerm = "" then (db, [])
    else
      let handle := env.resolveHandle repoDid
      if env.staticIgnore.contains handle then (db, [])
      else
        let r := isHandleIgnored now db handle
        if r.1 then (r.2, [])
        else
          let uri := "at://" ++ repoDid ++ "/" ++ path
          handleScamClassification env now r.2
            (env.classifier (String.mk (text.data.take 100))) handle uri cid

/-! ## Windowed duplicate aggregator
(`processBufferedMessages`, update-then-compare variant)

An event that survives the commit/operation guards of pass 1 carries
the poster's DID (`message.did`), the post text, the record key
(`op.rkey`) and an optional CID. -/

structure PostEvent where
  did : String
  text : String
  rkey : String
  cid : Option String
deriving DecidableEq

structure Post where
  uri : String
  cid : Option String
deriving DecidableEq

/-- `AccountData = { count, postPaths: Set<string>, posts }`. -/
structure AccountData where
  count : Nat
  postPaths : List String
  posts : List Post
deriving DecidableEq

abbrev DidMap := List (String × AccountData)
abbrev PostTextMap := List (String × DidMap)

/-- Counts the maximal non-whitespace runs of a trimmed character
list (the length of its `split(/\s+/)`). -/
def wordCountAux : List Char → Bool → Nat
  | [], _ => 0
  | c :: rest, inWord =>
    if c.isWhitespace then wordCountAux rest false
    else (if inWord then 0 else 1) + wordCountAux rest true

/-- `text.trim().split(/\s+/).length`: the number of whitespace-runs
segments of the trimmed text; on an empty trimmed string the JS split
yields `[""]`, of length 1. -/
def wordCount (text : String) : Nat :=
  let t := trimChars text.data
  if t.isEmpty then 1 else wordCountAux t false

/-- `` `at://${message.did}/${op.collection}/${op.rkey}` `` with
`op.collection = "app.bsky.feed.post"`. -/
def postUri (e : PostEvent) : String :=
  "at://" ++ e.did ++ "/app.bsky.feed.post/" ++ e.rkey

def emptyAccountData : AccountData := ⟨0, [], []⟩

/-- Pass 1, one event: skip texts of fewer than 5 words; find or create
the per-text and per-account entries; if the `rkey` is already in
`postPaths` nothing changes, otherwise add it, bump `count` and append
the post. -/
def buildStep (m : PostTextMap) (e : PostEvent) : PostTextMap :=
  if wordCount e.text < 5 then m
  else
    let didMap := (alistGet m e.text).getD []
    let accountData := (alistGet didMap e.did).getD emptyAccountData
    if accountData.postPaths.contains e.rkey then m
    else
      alistSet m e.text (alistSet didMap e.did
        ⟨accountData.count + 1, accountData.postPaths ++ [e.rkey],
          accountData.posts ++ [⟨postUri e, e.cid⟩]⟩)

/-- Pass 1 over the whole batch, starting from the cleared map. -/
def buildMap (events : List PostEvent) : PostTextMap :=
  events.foldl buildStep []

def getEntry (m : PostTextMap) (text did : String) : Option AccountData :=
  match alistGet m text with
  | none => none
  | some dm => alistGet dm did

/-- `SAME_ACCOUNT_SPAM_THRESHOLD`, `MULTIPLE_ACCOUNT_SPAM_THRESHOLD`,
`SCAM_SPAM_THRESHOLD` — non-negative configuration integers. -/
structure SpamConfig where
  sameAccountThreshold : Nat
  multipleAccountThreshold : Nat
  scamThreshold : Nat
deriving DecidableEq

/-- The environment defaults `3 / 3 / 5`. -/
def defaultConfig : SpamConfig := ⟨3, 3, 5⟩

abbrev Scores := List (String × Nat)

/-- Observable effects of one aggregator run: the `bot.label` attempts
in call order, the aggregate cross-account log records
`(text, accounts)`, and the escalation firings (one entry per
account-level label attempt of the escalation rule). -/
structure Effects where
  labels : List LabelAction
  multiLogs : List (String × List String)
  escalations : List String
deriving DecidableEq

def Effects.empty : Effects := ⟨[], [], []⟩

structure RunSt where
  scores : Scores
  mem : MemCache
  eff : Effects
deriving DecidableEq

/-- Success oracle for the fallible `bot.label` calls (each call site
wraps the call in `try`/`catch`). -/
abbrev Oracle := LabelRef → Bool

def spamPost (p : Post) : LabelAction :=
  ⟨LabelRef.post p.uri p.cid, ["spam"]⟩

def spamAccount (did : String) : LabelAction :=
  ⟨LabelRef.account did, ["spam"]⟩

/-- Pass 2, one account of one duplicate group (the same-account rule
followed by the escalation rule).  `updatedScore` starts at 0 and is
set to `currentScore + count` only when the same-account rule fires
(`count >= SAME_ACCOUNT_SPAM_THRESHOLD`, inclusive), in which case the
score is persisted and every post of the entry gets one spam-label
attempt.  The escalation check `updatedScore > SCAM_SPAM_THRESHOLD`
(strict) then attempts `bot.label({did})`; inside its `try`, success
also runs `addHandleToMemoryIgnoreList(did, 7)` and resets the score to
0, while a failure is caught after the label call, leaving score and
ephemeral cache as they were. -/
def evalAccount (cfg : SpamConfig) (oracle : Oracle) (now : Nat)
    (st : RunSt) (did : String) (a : AccountData) : RunSt :=
  let currentScore := alistGetD st.scores did 0
  let same := cfg.sameAccountThreshold ≤ a.count
  let updatedScore := if same then currentScore + a.count else 0
  let scores1 := if same then alistSet st.scores did updatedScore else st.scores
  let labels1 :=
    if same then st.eff.labels ++ a.posts.map spamPost else st.eff.labels
  if cfg.scamThreshold < updatedScore then
    if oracle (LabelRef.account did) then
      { scores := alistSet scores1 did 0,
        mem := addHandleToMemoryIgnoreList now st.mem did 7,
        eff := { labels := labels1 ++ [spamAccount did],
                 multiLogs := st.eff.multiLogs,
                 escalations := st.eff.escalations ++ [did] } }
    else
      { scores := scores1, mem := st.mem,
        eff := { labels := labels1 ++ [spamAccount did],
                 multiLogs := st.eff.multiLogs,
                 escalations := st.eff.escalations ++ [did] } }
  else
    { scores := scores1, mem := st.mem,
      eff := { labels := labels1, multiLogs := st.eff.multiLogs,
               escalations := st.eff.escalations } }

/-- The per-account loop of pass 2 (`for (const [did, accountData] of
didMap.entries())`), in insertion order. -/
def evalAccounts (cfg : SpamConfig) (oracle : Oracle) (now : Nat)
    (st : RunSt) (entries : DidMap) : RunSt :=
  entries.foldl (fun s p => evalAccount cfg oracle now s p.1 p.2) st

/-- Pass 2, one duplicate group: the cross-account rule
(`didMap.size >= MULTIPLE_ACCOUNT_SPAM_THRESHOLD`, inclusive) labels
every collected post of every account once and emits one aggregate log
record; then each account is evaluated in insertion order. -/
def evalGroup (cfg : SpamConfig) (oracle : Oracle) (now : Nat)
    (st : RunSt) (g : String × DidMap) : RunSt :=
  let st1 :=
    if cfg.multipleAccountThreshold ≤ g.2.length then
      { st with
        eff := { labels := st.eff.labels ++
                   ((g.2.map (fun p => p.2.posts)).flatten).map spamPost,
                 multiLogs := st.eff.multiLogs ++
                   [(g.1, g.2.map (fun p => p.1))],
                 escalations := st.eff.escalations } }
    else st
  evalAccounts cfg oracle now st1 g.2

/-- Aggregator state between runs: the `isProcessing` flag, the
cross-window `cumulativeSpamScores` map and the ephemeral ignore cache
written by escalations. -/
structure AggState where
  processing : Bool
  scores : Scores
  mem : MemCache
deriving DecidableEq

/-- Both passes of a run (the duplicate-group map is rebuilt from
scratch each window). -/
def runBody (cfg : SpamConfig) (oracle : Oracle) (now : Nat)
    (scores : Scores) (mem : MemCache) (events : List PostEvent) : RunSt :=
  (buildMap events).foldl (evalGroup cfg oracle now)
    ⟨scores, mem, Effects.empty⟩

/-- `processBufferedMessages`: `if (isProcessing) return` drops the
batch with no effect; otherwise the flag is set for the duration of the
run and cleared unconditionally at the end. -/
def processBufferedMessages (cfg : SpamConfig) (oracle : Oracle)
    (now : Nat) (s : AggState) (messages : List PostEvent) :
    AggState × Effects :=
  if s.processing then (s, Effects.empty)
  else
    let r := runBody cfg oracle now s.scores s.mem messages
    (⟨false, r.scores, r.mem⟩, r.eff)

/-- All `rkey`s submitted for a `(text, account)` pair in a batch
(regardless of the word-count pre-filter, which only discards). -/
def submittedRkeys (events : List PostEvent) (text did : String) :
    List String :=
  (events.filter (fun e => e.text == text && e.did == did)).map
    (fun e => e.rkey)

/-- Invariant of pass 1: every `AccountWindowEntry` counts exactly its
deduplicated `postPaths`, which are distinct `rkey`s submitted for that
pair. -/
def EntryInv (events : List PostEvent) (m : PostTextMap) : Prop :=
  ∀ text did a, getEntry m text did = some a →
    a.count = a.postPaths.length ∧ a.postPaths.Nodup ∧
    ∀ r ∈ a.postPaths, r ∈ submittedRkeys events text did

/-! ## Association-list lemmas -/

theorem alistGet_cons {α : Type} (p : String × α) (l : List (String × α))
    (k : String) :
    alistGet (p :: l) k = if p.1 = k then some p.2 else alistGet l k := by
  by_cases h : p.1 = k <;> simp [alistGet, h]

theorem alistGet_set_self {α : Type} (l : List (String × α)) (k : String)
    (v : α) : alistGet (alistSet l k v) k = some v := by
  induction l with
  | nil => simp [alistSet, alistGet]
  | cons p l ih =>
    by_cases h : p.1 = k
    · simp [alistSet, h, alistGet]
    · simp [alistSet, h, alistGet, ih]

theorem alistSet_cons {α : Type} (p : String × α) (l : List (String × α))
    (k : String) (v : α) :
    alistSet (p :: l) k v =
      if p.1 = k then (k, v) :: l else p :: alistSet l k v := by
  by_cases h : p.1 = k <;> simp [alistSet, h]

theorem alistGet_set_ne {α : Type} (l : List (String × α)) (k k' : String)
    (v : α) (hne : k' ≠ k) : alistGet (alistSet l k v) k' = alistGet l k' := by
  induction l with
  | nil => simp [alistSet, alistGet, Ne.symm hne]
  | cons p l ih =>
    by_cases h : p.1 = k
    · have h' : ¬ (k : String) = k' := fun hk => hne hk.symm
      have h'' : ¬ p.1 = k' := by rw [h]; exact h'
      rw [alistSet_cons, if_pos h, alistGet_cons, alistGet_cons,
        if_neg h'', if_neg h']
    · rw [alistSet_cons, if_neg h, alistGet_cons, alistGet_cons]
      by_cases h2 : p.1 = k'
      · rw [if_pos h2, if_pos h2]
      · rw [if_neg h2, if_neg h2, ih]

theorem alistSet_eq_self {α : Type} (l : List (String × α)) (k : String)
    (v : α) (h : alistGet l k = some v) : alistSet l k v = l := by
  induction l with
  | nil => simp [alistGet] at h
  | cons p l ih =>
    rw [alistGet_cons] at h
    by_cases hk : p.1 = k
    · rw [if_pos hk] at h
      have hv : p.2 = v := by injection h
      have hp : (k, v) = p := by
        cases p with
        | mk a b => simp only at hk hv; rw [hk, hv]
      simp [alistSet, hk, hp]
    · rw [if_neg hk] at h
      simp [alistSet, hk, ih h]

theorem alistGet_erase_self {α : Type} (l : List (String × α)) (k : String) :
    alistGet (alistErase l k) k = none := by
  induction l with
  | nil => rfl
  | cons p l ih =>
    by_cases h : p.1 = k
    · simpa [alistErase, h] using ih
    · simpa [alistErase, h, alistGet] using ih

/-! ## Evaluation lemmas for the aggregator -/

/-- Same-account rule fired, escalation fired, account label succeeded:
posts labeled, account labeled, ephemeral ignore added for 7 days,
score reset to 0. -/
theorem evalAccount_fire_success (cfg : SpamConfig) (oracle : Oracle)
    (now : Nat) (st : RunSt) (did : String) (a : AccountData)
    (hsame : cfg.sameAccountThreshold ≤ a.count)
    (hscam : cfg.scamThreshold < alistGetD st.scores did 0 + a.count)
    (horacle : oracle (LabelRef.account did) = true) :
    evalAccount cfg oracle now st did a =
      { scores := alistSet (alistSet st.scores did
          (alistGetD st.scores did 0 + a.count)) did 0,
        mem := addHandleToMemoryIgnoreList now st.mem did 7,
        eff := { labels := st.eff.labels ++ a.posts.map spamPost ++
                   [spamAccount did],
                 multiLogs := st.eff.multiLogs,
                 escalations := st.eff.escalations ++ [did] } } := by
  simp [evalAccount, hsame, hscam, horacle]

/-- Same-account rule fired, escalation fired, account label failed:
the catch leaves the updated (un-reset) score and the ephemeral cache
untouched. -/
theorem evalAccount_fire_failure (cfg : SpamConfig) (oracle : Oracle)
    (now : Nat) (st : RunSt) (did : String) (a : AccountData)
    (hsame : cfg.sameAccountThreshold ≤ a.count)
    (hscam : cfg.scamThreshold < alistGetD st.scores did 0 + a.count)
    (horacle : oracle (LabelRef.account did) = false) :
    evalAccount cfg oracle now st did a =
      { scores := alistSet st.scores did (alistGetD st.scores did 0 + a.count),
        mem := st.mem,
        eff := { labels := st.eff.labels ++ a.posts.map spamPost ++
                   [spamAccount did],
                 multiLogs := st.eff.multiLogs,
                 escalations := st.eff.escalations ++ [did] } } := by
  simp [evalAccount, hsame, hscam, horacle]

/-- Same-account rule fired but the updated score does not exceed the
scam threshold: posts labeled, score persisted, no escalation. -/
theorem evalAccount_same_noescalation (cfg : SpamConfig) (oracle : Oracle)
    (now : Nat) (st : RunSt) (did : String) (a : AccountData)
    (hsame : cfg.sameAccountThreshold ≤ a.count)
    (hscam : ¬ cfg.scamThreshold < alistGetD st.scores did 0 + a.count) :
    evalAccount cfg oracle now st did a =
      { scores := alistSet st.scores did (alistGetD st.scores did 0 + a.count),
        mem := st.mem,
        eff := { labels := st.eff.labels ++ a.posts.map spamPost,
                 multiLogs := st.eff.multiLogs,
                 escalations := st.eff.escalations } } := by
  simp [evalAccount, hsame, hscam]

/-- Below the same-account threshold nothing happens: `updatedScore`
stays 0 and the escalation check `0 > SCAM_SPAM_THRESHOLD` cannot fire
for a non-negative threshold. -/
theorem evalAccount_nosame (cfg : SpamConfig) (oracle : Oracle)
    (now : Nat) (st : RunSt) (did : String) (a : AccountData)
    (hsame : ¬ cfg.sameAccountThreshold ≤ a.count) :
    evalAccount cfg oracle now st did a = st := by
  simp [evalAccount, hsame]

/-- The escalation attempts of one account evaluation, as one
equation: the check fires iff the same-account rule fired and the
post-update score strictly exceeds the scam threshold. -/
theorem evalAccount_escalations (cfg : SpamConfig) (oracle : Oracle)
    (now : Nat) (st : RunSt) (did : String) (a : AccountData) :
    (evalAccount cfg oracle now st did a).eff.escalations =
      if cfg.sameAccountThreshold ≤ a.count ∧
          cfg.scamThreshold < alistGetD st.scores did 0 + a.count
      then st.eff.escalations ++ [did] else st.eff.escalations := by
  by_cases hsame : cfg.sameAccountThreshold ≤ a.count
  · by_cases hscam : cfg.scamThreshold < alistGetD st.scores did 0 + a.count
    · cases horacle : oracle (LabelRef.account did) with
      | false =>
        rw [evalAccount_fire_failure cfg oracle now st did a hsame hscam
          horacle]
        simp [hsame, hscam]
      | true =>
        rw [evalAccount_fire_success cfg oracle now st did a hsame hscam
          horacle]
        simp [hsame, hscam]
    · rw [evalAccount_same_noescalation cfg oracle now st did a hsame hscam]
      simp [hscam]
  · rw [evalAccount_nosame cfg oracle now st did a hsame]
    simp [hsame]

/-- Evaluating an account with a different key never records an
escalation for `did`. -/
theorem evalAccount_count_ne (cfg : SpamConfig) (oracle : Oracle)
    (now : Nat) (st : RunSt) (did : String) (p : String × AccountData)
    (hb : did ≠ p.1) :
    ((evalAccount cfg oracle now st p.1 p.2).eff.escalations.count did)
      = st.eff.escalations.count did := by
  rw [evalAccount_escalations]
  by_cases hc : cfg.sameAccountThreshold ≤ p.2.count ∧
      cfg.scamThreshold < alistGetD st.scores p.1 0 + p.2.count
  · have h0 : ([p.1] : List String).count did = 0 := by
      rw [List.count_eq_zero]
      simp [hb]
    rw [if_pos hc, List.count_append, h0, Nat.add_zero]
  · rw [if_neg hc]

/-- One account evaluation adds at most one escalation for `did`. -/
theorem evalAccount_count_le (cfg : SpamConfig) (oracle : Oracle)
    (now : Nat) (st : RunSt) (did : String) (p : String × AccountData) :
    ((evalAccount cfg oracle now st p.1 p.2).eff.escalations.count did)
      ≤ st.eff.escalations.count did + 1 := by
  rw [evalAccount_escalations]
  by_cases hc : cfg.sameAccountThreshold ≤ p.2.count ∧
      cfg.scamThreshold < alistGetD st.scores p.1 0 + p.2.count
  · rw [if_pos hc, List.count_append]
    have h1 : ([p.1].count did) ≤ 1 := by
      by_cases hd : did = p.1 <;> simp [hd]
    exact Nat.add_le_add_left h1 _
  · rw [if_neg hc]
    exact Nat.le_succ _

/-- Accounts whose key differs from `did` leave its escalation count
unchanged across the whole per-group loop. -/
theorem evalAccounts_count_notmem (cfg : SpamConfig) (oracle : Oracle)
    (now : Nat) (st : RunSt) (entries : DidMap) (did : String)
    (hnot : did ∉ entries.map Prod.fst) :
    ((evalAccounts cfg oracle now st entries).eff.escalations.count did)
      = st.eff.escalations.count did := by
  induction entries generalizing st with
  | nil => rfl
  | cons p rest ih =>
    have hb : did ≠ p.1 := by
      intro h
      exact hnot (by simp [h])
    have hnot' : did ∉ rest.map Prod.fst := by
      intro h
      exact hnot (by simp [h])
    show ((evalAccounts cfg oracle now
      (evalAccount cfg oracle now st p.1 p.2) rest).eff.escalations.count did)
        = st.eff.escalations.count did
    rw [ih _ hnot', evalAccount_count_ne cfg oracle now st did p hb]

/-- With distinct account keys, the per-group loop records at most one
escalation per account. -/
theorem evalAccounts_count_le (cfg : SpamConfig) (oracle : Oracle)
    (now : Nat) (st : RunSt) (entries : DidMap) (did : String)
    (hnodup : (entries.map Prod.fst).Nodup) :
    ((evalAccounts cfg oracle now st entries).eff.escalations.count did)
      ≤ st.eff.escalations.count did + 1 := by
  induction entries generalizing st with
  | nil => exact Nat.le_succ _
  | cons p rest ih =>
    have hcons : p.1 ∉ rest.map Prod.fst ∧ (rest.map Prod.fst).Nodup := by
      have h' := hnodup
      rw [List.map_cons, List.nodup_cons] at h'
      exact h'
    show ((evalAccounts cfg oracle now
      (evalAccount cfg oracle now st p.1 p.2) rest).eff.escalations.count did)
        ≤ st.eff.escalations.count did + 1
    by_cases hd : did = p.1
    · have hnot : did ∉ rest.map Prod.fst := by rw [hd]; exact hcons.1
      rw [evalAccounts_count_notmem cfg oracle now _ rest did hnot]
      exact evalAccount_count_le cfg oracle now st did p
    · calc ((evalAccounts cfg oracle now
            (evalAccount cfg oracle now st p.1 p.2) rest).eff.escalations.count
              did)
          ≤ ((evalAccount cfg oracle now st p.1 p.2).eff.escalations.count did)
              + 1 := ih _ hcons.2
        _ = st.eff.escalations.count did + 1 := by
            rw [evalAccount_count_ne cfg oracle now st did p hd]

/-- With the empty term list the compiled pattern is `\b()\b` — a
single empty alternative — so a match, when it exists, is the empty
string. -/
theorem findScamTerm_nil (text : String) :
    findScamTerm [] text = none ∨ findScamTerm [] text = some "" := by
  unfold findScamTerm
  cases hscan : scanMatch (text.data.map Char.toLower)
      (compiledAlternatives []) with
  | none => exact Or.inl rfl
  | some t =>
    refine Or.inr ?_
    have ht : t = [] := by
      unfold scanMatch at hscan
      obtain ⟨p, hp, hfind⟩ := List.exists_of_findSome?_eq_some hscan
      have hmem := List.mem_of_find?_eq_some hfind
      simpa [compiledAlternatives, alternatives] using hmem
    rw [ht]
    decide

/-- A lookup on an initialised durable store leaves it initialised. -/
theorem isHandleIgnored_db_some (now : Nat) (m : DbMap) (s : String) :
    ∃ m', (isHandleIgnored now (some m) s).2 = some m' := by
  unfold isHandleIgnored
  cases hg : alistGet m s with
  | none => exact ⟨m, by simp [hg]⟩
  | some exp =>
    by_cases h : exp < now
    · exact ⟨alistErase m s, by simp [hg, h]⟩
    · exact ⟨m, by simp [hg, h]⟩

/-! ## Pass-1 invariant lemmas -/

theorem submittedRkeys_append (evs evs' : List PostEvent) (t d : String) :
    submittedRkeys (evs ++ evs') t d
      = submittedRkeys evs t d ++ submittedRkeys evs' t d := by
  unfold submittedRkeys
  rw [List.filter_append, List.map_append]

theorem rkey_mem_submitted_self (e : PostEvent) :
    e.rkey ∈ submittedRkeys [e] e.text e.did := by
  simp [submittedRkeys]

/-- The invariant only mentions already-submitted rkeys, so it is
preserved when the batch grows. -/
theorem entryInv_mono (evs evs' : List PostEvent) (m : PostTextMap)
    (hInv : EntryInv evs m) : EntryInv (evs ++ evs') m := by
  intro text did a hget
  obtain ⟨h1, h2, h3⟩ := hInv text did a hget
  refine ⟨h1, h2, fun r hr => ?_⟩
  rw [submittedRkeys_append]
  exact List.mem_append_left _ (h3 r hr)

/-- When the dedup guard does not trigger, `buildStep` rewrites the
`(e.text, e.did)` entry and nothing else. -/
theorem buildStep_eq_of_new (m : PostTextMap) (e : PostEvent)
    (hw : ¬ wordCount e.text < 5)
    (hc : (((alistGet ((alistGet m e.text).getD []) e.did).getD
        emptyAccountData).postPaths.contains e.rkey) = false) :
    buildStep m e =
      alistSet m e.text (alistSet ((alistGet m e.text).getD []) e.did
        ⟨((alistGet ((alistGet m e.text).getD []) e.did).getD
            emptyAccountData).count + 1,
          ((alistGet ((alistGet m e.text).getD []) e.did).getD
            emptyAccountData).postPaths ++ [e.rkey],
          ((alistGet ((alistGet m e.text).getD []) e.did).getD
            emptyAccountData).posts ++ [⟨postUri e, e.cid⟩]⟩) := by
  simp only [buildStep, if_neg hw, hc, Bool.false_eq_true, if_false]

theorem getEntry_set_self (m : PostTextMap) (t : String) (dm : DidMap)
    (did : String) :
    getEntry (alistSet m t dm) t did = alistGet dm did := by
  unfold getEntry
  rw [alistGet_set_self]

theorem getEntry_set_ne (m : PostTextMap) (t t' : String) (dm : DidMap)
    (did : String) (h : t' ≠ t) :
    getEntry (alistSet m t dm) t' did = getEntry m t' did := by
  unfold getEntry
  rw [alistGet_set_ne _ _ _ _ h]

/-- One build step preserves the pass-1 invariant. -/
theorem entryInv_buildStep (evs : List PostEvent) (m : PostTextMap)
    (e : PostEvent) (hInv : EntryInv evs m) :
    EntryInv (evs ++ [e]) (buildStep m e) := by
  by_cases hw : wordCount e.text < 5
  · rw [show buildStep m e = m by simp only [buildStep, if_pos hw]]
    exact entryInv_mono evs [e] m hInv
  · by_cases hc : (((alistGet ((alistGet m e.text).getD []) e.did).getD
        emptyAccountData).postPaths.contains e.rkey) = true
    · rw [show buildStep m e = m by
        simp only [buildStep, if_neg hw, hc, if_true]]
      exact entryInv_mono evs [e] m hInv
    · have hc' : (((alistGet ((alistGet m e.text).getD []) e.did).getD
          emptyAccountData).postPaths.contains e.rkey) = false :=
        Bool.eq_false_iff.mpr hc
      rw [buildStep_eq_of_new m e hw hc']
      -- facts about the old (or freshly created empty) entry
      have ha0 : (((alistGet ((alistGet m e.text).getD []) e.did).getD
            emptyAccountData).count
          = ((alistGet ((alistGet m e.text).getD []) e.did).getD
            emptyAccountData).postPaths.length) ∧
          (((alistGet ((alistGet m e.text).getD []) e.did).getD
            emptyAccountData).postPaths.Nodup) ∧
          (∀ r ∈ ((alistGet ((alistGet m e.text).getD []) e.did).getD
            emptyAccountData).postPaths,
            r ∈ submittedRkeys evs e.text e.did) := by
        cases hdm : alistGet m e.text with
        | none => simp [alistGet, emptyAccountData]
        | some dm0 =>
          cases hd2 : alistGet dm0 e.did with
          | none => simp [hdm, hd2, emptyAccountData]
          | some aold =>
            have hget0 : getEntry m e.text e.did = some aold := by
              simp [getEntry, hdm, hd2]
            have := hInv e.text e.did aold hget0
            simpa [hdm, hd2] using this
      obtain ⟨h1, h2, h3⟩ := ha0
      have hnotmem : e.rkey ∉ ((alistGet ((alistGet m e.text).getD [])
          e.did).getD emptyAccountData).postPaths := by
        simpa using hc'
      intro text did a hget
      by_cases ht : text = e.text
      · subst ht
        rw [getEntry_set_self] at hget
        by_cases hd : did = e.did
        · subst hd
          rw [alistGet_set_self, Option.some.injEq] at hget
          subst hget
          refine ⟨by simp [h1], ?_, ?_⟩
          · simp [List.nodup_append, h2, hnotmem]
          · intro r hr
            rw [List.mem_append] at hr
            rw [submittedRkeys_append]
            cases hr with
            | inl hr => exact List.mem_append_left _ (h3 r hr)
            | inr hr =>
              refine List.mem_append_right _ ?_
              rw [List.mem_singleton] at hr
              subst hr
              exact rkey_mem_submitted_self e
        · rw [alistGet_set_ne _ _ _ _ hd] at hget
          cases hdm : alistGet m e.text with
          | none =>
            rw [hdm] at hget
            simp [alistGet] at hget
          | some dm0 =>
            rw [hdm] at hget
            have hget0 : getEntry m e.text did = some a := by
              simp only [getEntry, hdm]
              exact hget
            exact entryInv_mono evs [e] m hInv e.text did a hget0
      · rw [getEntry_set_ne _ _ _ _ _ ht] at hget
        exact entryInv_mono evs [e] m hInv text did a hget

theorem entryInv_foldl (evs' : List PostEvent) (evs : List PostEvent)
    (m : PostTextMap) (hInv : EntryInv evs m) :
    EntryInv (evs ++ evs') (List.foldl buildStep m evs') := by
  induction evs' generalizing evs m with
  | nil => simpa using hInv
  | cons e rest ih =>
    have h2 := ih (evs ++ [e]) (buildStep m e) (entryInv_buildStep evs m e hInv)
    simpa [List.append_assoc] using h2

theorem entryInv_buildMap (events : List PostEvent) :
    EntryInv events (buildMap events) := by
  have hnil : EntryInv [] [] := by
    intro text did a hget
    simp [getEntry, alistGet] at hget
  have := entryInv_foldl events [] [] hnil
  simpa [buildMap] using this

/-! ## Claim theorems -/

/-- **C6** (confirmed): for both ignore-cache tiers, `isIgnored` of an
absent subject is `false`; of a present subject whose expiry is
strictly past, it deletes the entry (the entry is gone afterwards) and
returns `false`; otherwise `true`.  Concretely, `add("acct1", 7)` at
time 0 is ignored immediately, and at 7 days + 1 second is not ignored
with the entry deleted — on both tiers. -/
theorem c6_ttl_cache_contract :
    (∀ (now : Nat) (m : MemCache) (s : String), alistGet m s = none →
      isHandleInMemoryIgnored now m s = (false, m)) ∧
    (∀ (now : Nat) (m : MemCache) (s : String) (exp : Nat),
      alistGet m s = some exp → exp < now →
      isHandleInMemoryIgnored now m s = (false, alistErase m s) ∧
        alistGet (alistErase m s) s = none) ∧
    (∀ (now : Nat) (m : MemCache) (s : String) (exp : Nat),
      alistGet m s = some exp → ¬ exp < now →
      isHandleInMemoryIgnored now m s = (true, m)) ∧
    (∀ (now : Nat) (m : DbMap) (s : String), alistGet m s = none →
      isHandleIgnored now (some m) s = (false, some m)) ∧
    (∀ (now : Nat) (m : DbMap) (s : String) (exp : Nat),
      alistGet m s = some exp → exp < now →
      isHandleIgnored now (some m) s = (false, some (alistErase m s)) ∧
        alistGet (alistErase m s) s = none) ∧
    (∀ (now : Nat) (m : DbMap) (s : String) (exp : Nat),
      alistGet m s = some exp → ¬ exp < now →
      isHandleIgnored now (some m) s = (true, some m)) ∧
    ((isHandleInMemoryIgnored 0
        (addHandleToMemoryIgnoreList 0 [] "acct1" 7) "acct1").1 = true ∧
      isHandleInMemoryIgnored (7 * msPerDay + 1000)
        (addHandleToMemoryIgnoreList 0 [] "acct1" 7) "acct1" = (false, []) ∧
      (isHandleIgnored 0
        (addHandleToIgnoreList 0 (some []) "acct1" 7) "acct1").1 = true ∧
      isHandleIgnored (7 * msPerDay + 1000)
        (addHandleToIgnoreList 0 (some []) "acct1" 7) "acct1"
          = (false, some []) ∧
      ∀ (now : Nat) (s : String),
        isHandleIgnored now none s = (false, none)) := by
  refine ⟨?_, ?_, ?_, ?_, ?_, ?_, ?_⟩
  · intro now m s hg; simp [isHandleInMemoryIgnored, hg]
  · intro now m s exp hg hlt
    exact ⟨by simp [isHandleInMemoryIgnored, hg, hlt],
      alistGet_erase_self m s⟩
  · intro now m s exp hg hlt; simp [isHandleInMemoryIgnored, hg, hlt]
  · intro now m s hg; simp [isHandleIgnored, hg]
  · intro now m s exp hg hlt
    exact ⟨by simp [isHandleIgnored, hg, hlt], alistGet_erase_self m s⟩
  · intro now m s exp hg hlt; simp [isHandleIgnored, hg, hlt]
  · exact ⟨by decide, by decide, by decide, by decide, fun now s => rfl⟩

/-- Witness for C6 at concrete inputs. -/
theorem c6_ttl_cache_contract_witness :
    isHandleInMemoryIgnored 10 [("a", 3)] "a" = (false, alistErase [("a", 3)] "a") ∧
      alistGet (alistErase ([("a", 3)] : MemCache) "a") "a" = none :=
  c6_ttl_cache_contract.2.1 10 [("a", 3)] "a" 3 (by decide) (by decide)

/-- **C3** (confirmed): a run triggered while the aggregator is in the
Processing state is dropped entirely — the state is unchanged and no
effect is produced, so the final state reflects only the first batch's
effects regardless of when during the first run the second trigger
lands; and a run that starts from Idle ends in Idle for every label
oracle, i.e. also after per-post labeling failures. -/
theorem c3_processing_guard :
    (∀ (cfg : SpamConfig) (oracle : Oracle) (now : Nat) (s : AggState)
        (msgs : List PostEvent), s.processing = true →
      processBufferedMessages cfg oracle now s msgs = (s, Effects.empty)) ∧
    (∀ (cfg : SpamConfig) (oracle : Oracle) (now : Nat) (s : AggState)
        (msgs : List PostEvent), s.processing = false →
      (processBufferedMessages cfg oracle now s msgs).1.processing = false) := by
  constructor
  · intro cfg oracle now s msgs hp
    simp [processBufferedMessages, hp]
  · intro cfg oracle now s msgs hp
    simp [processBufferedMessages, hp]

/-- Witness for C3 at concrete inputs. -/
theorem c3_processing_guard_witness :
    processBufferedMessages defaultConfig (fun _ => true) 0
        ⟨true, [("d", 2)], []⟩ [⟨"d", "one two three four five", "r", none⟩]
      = (⟨true, [("d", 2)], []⟩, Effects.empty) ∧
    (processBufferedMessages defaultConfig (fun _ => false) 0
        ⟨false, [], []⟩ [⟨"d", "one two three four five", "r", none⟩]).1.processing
      = false :=
  ⟨c3_processing_guard.1 defaultConfig (fun _ => true) 0
      ⟨true, [("d", 2)], []⟩ [⟨"d", "one two three four five", "r", none⟩] rfl,
    c3_processing_guard.2 defaultConfig (fun _ => false) 0
      ⟨false, [], []⟩ [⟨"d", "one two three four five", "r", none⟩] rfl⟩

/-- **C9** (counterexample): a failed classification (`false`, modelled
`none`) does produce an ignore-cache write — the `default` branch adds
a 1-day durable entry — contradicting "no ignore-cache write". -/
theorem c9_failed_classifier_counterexample :
    handleScamClassification ⟨fun d => d, [], fun _ => none⟩ 0 (some [])
        none "h" "uri" none = (some [("h", msPerDay)], []) ∧
    (handleScamClassification ⟨fun d => d, [], fun _ => none⟩ 0 (some [])
        none "h" "uri" none).1 ≠ some [] := by
  constructor
  · decide
  · decide

/-- **C9** (amended, proved): a failed classification is logged and
does not propagate (the classifier returns a value, never throws); it
leads to no label attempt, but — identically to a "benign" or any
unrecognized verdict — it adds the account to the durable ignore cache
for 1 day. -/
theorem c9_failed_classifier_like_benign :
    ∀ (env : ScamEnv) (now : Nat) (db : DbState) (handle uri : String)
      (cid : Option String),
      handleScamClassification env now db none handle uri cid
          = handleScamClassification env now db (some "benign") handle uri cid ∧
      (handleScamClassification env now db none handle uri cid).2 = [] ∧
      (handleScamClassification env now db none handle uri cid).1
          = addHandleToIgnoreList now db handle 1 := by
  intro env now db handle uri cid
  exact ⟨rfl, rfl, rfl⟩

/-- **C10** (confirmed): if the account-level label of the escalation
rule fails, the `catch` leaves the updated (un-reset) cumulative score
and does not touch the ephemeral ignore cache, so any later window in
which the same-account rule fires again for that account re-satisfies
the escalation condition. -/
theorem c10_escalation_failure_keeps_state :
    ∀ (cfg : SpamConfig) (oracle : Oracle) (now : Nat) (st : RunSt)
      (did : String) (a : AccountData),
      cfg.sameAccountThreshold ≤ a.count →
      cfg.scamThreshold < alistGetD st.scores did 0 + a.count →
      oracle (LabelRef.account did) = false →
      (evalAccount cfg oracle now st did a).mem = st.mem ∧
      alistGetD (evalAccount cfg oracle now st did a).scores did 0
          = alistGetD st.scores did 0 + a.count ∧
      (∀ a' : AccountData, cfg.sameAccountThreshold ≤ a'.count →
        cfg.scamThreshold <
          alistGetD (evalAccount cfg oracle now st did a).scores did 0
            + a'.count) := by
  intro cfg oracle now st did a hsame hscam horacle
  rw [evalAccount_fire_failure cfg oracle now st did a hsame hscam horacle]
  have hget : alistGetD (alistSet st.scores did
      (alistGetD st.scores did 0 + a.count)) did 0
      = alistGetD st.scores did 0 + a.count := by
    simp [alistGetD, alistGet_set_self]
  refine ⟨rfl, hget, ?_⟩
  intro a' hsame'
  rw [hget]
  exact lt_of_lt_of_le hscam (Nat.le_add_right _ _)

/-- Witness for C10 at concrete inputs. -/
theorem c10_escalation_failure_keeps_state_witness :
    (evalAccount defaultConfig (fun _ => false) 0 ⟨[], [], Effects.empty⟩
        "d" ⟨6, ["r1"], [⟨"u", none⟩]⟩).mem = [] ∧
    alistGetD (evalAccount defaultConfig (fun _ => false) 0
        ⟨[], [], Effects.empty⟩ "d" ⟨6, ["r1"], [⟨"u", none⟩]⟩).scores "d" 0
      = 6 :=
  have h := c10_escalation_failure_keeps_state defaultConfig (fun _ => false)
    0 ⟨[], [], Effects.empty⟩ "d" ⟨6, ["r1"], [⟨"u", none⟩]⟩
    (by decide) (by decide) rfl
  ⟨h.1, h.2.1⟩

/-- **C1** (counterexample): the escalation is not limited to once per
window per account.  With the default thresholds (3/3/5), one account
posting two different six-word texts six times each has its score cross
the threshold in both duplicate groups of the same window, so the
account-level label attempt fires twice in that single run. -/
theorem c1_escalation_counterexample :
    ((processBufferedMessages defaultConfig (fun _ => true) 0
      ⟨false, [], []⟩
      [⟨"did:x", "alpha beta gamma delta epsilon zeta", "a1", none⟩,
       ⟨"did:x", "alpha beta gamma delta epsilon zeta", "a2", none⟩,
       ⟨"did:x", "alpha beta gamma delta epsilon zeta", "a3", none⟩,
       ⟨"did:x", "alpha beta gamma delta epsilon zeta", "a4", none⟩,
       ⟨"did:x", "alpha beta gamma delta epsilon zeta", "a5", none⟩,
       ⟨"did:x", "alpha beta gamma delta epsilon zeta", "a6", none⟩,
       ⟨"did:x", "one two three four five six", "b1", none⟩,
       ⟨"did:x", "one two three four five six", "b2", none⟩,
       ⟨"did:x", "one two three four five six", "b3", none⟩,
       ⟨"did:x", "one two three four five six", "b4", none⟩,
       ⟨"did:x", "one two three four five six", "b5", none⟩,
       ⟨"did:x", "one two three four five six", "b6", none⟩]).2.escalations.count
      "did:x") = 2 := by
  decide

/-- **C1** (amended, proved): the escalation check compares the
post-update cumulative score (prior score plus this window's
occurrence count) against the scam-score threshold with strict
greater-than; when it exceeds and the account-level label succeeds, the
account itself is labeled, added to the ephemeral ignore cache for 7
days, and its score is reset to zero.  The check fires at most once per
account per duplicate group of a window (an account present in several
groups can fire once in each). -/
theorem c1_escalation_rule :
    (∀ (cfg : SpamConfig) (oracle : Oracle) (now : Nat) (st : RunSt)
        (did : String) (a : AccountData),
      (evalAccount cfg oracle now st did a).eff.escalations =
        if cfg.sameAccountThreshold ≤ a.count ∧
            cfg.scamThreshold < alistGetD st.scores did 0 + a.count
        then st.eff.escalations ++ [did] else st.eff.escalations) ∧
    (∀ (cfg : SpamConfig) (oracle : Oracle) (now : Nat) (st : RunSt)
        (did : String) (a : AccountData),
      cfg.sameAccountThreshold ≤ a.count →
      cfg.scamThreshold < alistGetD st.scores did 0 + a.count →
      oracle (LabelRef.account did) = true →
      (evalAccount cfg oracle now st did a).mem
          = addHandleToMemoryIgnoreList now st.mem did 7 ∧
      alistGetD (evalAccount cfg oracle now st did a).scores did 0 = 0 ∧
      (evalAccount cfg oracle now st did a).eff.labels
          = st.eff.labels ++ a.posts.map spamPost ++ [spamAccount did]) ∧
    (∀ (cfg : SpamConfig) (oracle : Oracle) (now : Nat) (st : RunSt)
        (entries : DidMap) (did : String),
      (entries.map Prod.fst).Nodup →
      ((evalAccounts cfg oracle now st entries).eff.escalations.count did)
        ≤ st.eff.escalations.count did + 1) := by
  refine ⟨evalAccount_escalations, ?_, evalAccounts_count_le⟩
  intro cfg oracle now st did a hsame hscam horacle
  rw [evalAccount_fire_success cfg oracle now st did a hsame hscam horacle]
  refine ⟨rfl, ?_, rfl⟩
  simp [alistGetD, alistGet_set_self]

/-- Witness for C1 at concrete inputs. -/
theorem c1_escalation_rule_witness :
    (evalAccount defaultConfig (fun _ => true) 0 ⟨[], [], Effects.empty⟩
        "d" ⟨6, ["r1"], [⟨"u", none⟩]⟩).mem
      = addHandleToMemoryIgnoreList 0 [] "d" 7 ∧
    alistGetD (evalAccount defaultConfig (fun _ => true) 0
        ⟨[], [], Effects.empty⟩ "d" ⟨6, ["r1"], [⟨"u", none⟩]⟩).scores "d" 0
      = 0 :=
  have h := c1_escalation_rule.2.1 defaultConfig (fun _ => true) 0
    ⟨[], [], Effects.empty⟩ "d" ⟨6, ["r1"], [⟨"u", none⟩]⟩
    (by decide) (by decide) rfl
  ⟨h.1, h.2.1⟩

/-- **C5** (confirmed): whenever `occurrenceCount` is at least the
same-account threshold (inclusive), every post of that account's entry
receives a spam-label attempt and `occurrenceCount` is added to the
account's cumulative score (observable at the end of the account's
evaluation whenever the escalation does not fire and succeed).  In
particular, with the default thresholds an account posting the same
five-word text four times has all four posts labeled and its score go
from 0 to 4. -/
theorem c5_same_account_rule :
    (∀ (cfg : SpamConfig) (oracle : Oracle) (now : Nat) (st : RunSt)
        (did : String) (a : AccountData),
      cfg.sameAccountThreshold ≤ a.count →
      ∃ tail, (evalAccount cfg oracle now st did a).eff.labels
          = st.eff.labels ++ a.posts.map spamPost ++ tail) ∧
    (∀ (cfg : SpamConfig) (oracle : Oracle) (now : Nat) (st : RunSt)
        (did : String) (a : AccountData),
      cfg.sameAccountThreshold ≤ a.count →
      ¬ (cfg.scamThreshold < alistGetD st.scores did 0 + a.count ∧
          oracle (LabelRef.account did) = true) →
      alistGetD (evalAccount cfg oracle now st did a).scores did 0
        = alistGetD st.scores did 0 + a.count) ∧
    ((processBufferedMessages defaultConfig (fun _ => true) 0
        ⟨false, [], []⟩
        [⟨"did:a", "alpha beta gamma delta epsilon", "r1", none⟩,
         ⟨"did:a", "alpha beta gamma delta epsilon", "r2", none⟩,
         ⟨"did:a", "alpha beta gamma delta epsilon", "r3", none⟩,
         ⟨"did:a", "alpha beta gamma delta epsilon", "r4", none⟩]).2.labels
      = [spamPost ⟨"at://did:a/app.bsky.feed.post/r1", none⟩,
         spamPost ⟨"at://did:a/app.bsky.feed.post/r2", none⟩,
         spamPost ⟨"at://did:a/app.bsky.feed.post/r3", none⟩,
         spamPost ⟨"at://did:a/app.bsky.feed.post/r4", none⟩] ∧
      alistGetD (processBufferedMessages defaultConfig (fun _ => true) 0
        ⟨false, [], []⟩
        [⟨"did:a", "alpha beta gamma delta epsilon", "r1", none⟩,
         ⟨"did:a", "alpha beta gamma delta epsilon", "r2", none⟩,
         ⟨"did:a", "alpha beta gamma delta epsilon", "r3", none⟩,
         ⟨"did:a", "alpha beta gamma delta epsilon", "r4", none⟩]).1.scores
        "did:a" 0 = 4) := by
  refine ⟨?_, ?_, by decide, by decide⟩
  · intro cfg oracle now st did a hsame
    by_cases hscam : cfg.scamThreshold < alistGetD st.scores did 0 + a.count
    · cases horacle : oracle (LabelRef.account did) with
      | false =>
        exact ⟨[spamAccount did],
          by rw [evalAccount_fire_failure cfg oracle now st did a hsame hscam
            horacle]⟩
      | true =>
        exact ⟨[spamAccount did],
          by rw [evalAccount_fire_success cfg oracle now st did a hsame hscam
            horacle]⟩
    · refine ⟨[], ?_⟩
      rw [evalAccount_same_noescalation cfg oracle now st did a hsame hscam]
      simp
  · intro cfg oracle now st did a hsame hno
    by_cases hscam : cfg.scamThreshold < alistGetD st.scores did 0 + a.count
    · have horacle : oracle (LabelRef.account did) = false := by
        cases h : oracle (LabelRef.account did) with
        | false => rfl
        | true => exact absurd ⟨hscam, h⟩ hno
      rw [evalAccount_fire_failure cfg oracle now st did a hsame hscam horacle]
      simp [alistGetD, alistGet_set_self]
    · rw [evalAccount_same_noescalation cfg oracle now st did a hsame hscam]
      simp [alistGetD, alistGet_set_self]

/-- Witness for C5 at concrete inputs. -/
theorem c5_same_account_rule_witness :
    alistGetD (evalAccount defaultConfig (fun _ => true) 0
        ⟨[], [], Effects.empty⟩ "d" ⟨4, ["r1"], [⟨"u", none⟩]⟩).scores "d" 0
      = alistGetD ([] : Scores) "d" 0 + 4 :=
  c5_same_account_rule.2.1 defaultConfig (fun _ => true) 0
    ⟨[], [], Effects.empty⟩ "d" ⟨4, ["r1"], [⟨"u", none⟩]⟩
    (by decide) (by decide)

/-- **C7** (counterexample): after a rebuild with the empty term list
the matcher does not return "no term" on every text: the compiled
pattern `\b()\b` matches the empty string at the first word boundary,
so `findScamTerm` returns the empty string on `"hello"`. -/
theorem c7_empty_terms_counterexample :
    findScamTerm [] "hello" = some "" ∧
      findScamTerm [] "hello" ≠ none := by
  constructor
  · decide
  · decide

/-- **C7** (amended, proved): after a rebuild with the empty term list,
neither the rebuild nor any match throws (both are total functions),
and `match(text)` never returns a term — it returns either no match or
the falsy empty-string match, so the dispatcher's `if (!scamTerm)`
guard stops every text before any further work. -/
theorem c7_empty_terms_matcher :
    ∀ text : String,
      (findScamTerm [] text = none ∨ findScamTerm [] text = some "") ∧
      (∀ (env : ScamEnv) (now : Nat) (db : DbState) (repoDid path : String)
        (cid : Option String),
        processScamMessage [] env now db repoDid text path cid = (db, [])) := by
  intro text
  refine ⟨findScamTerm_nil text, ?_⟩
  intro env now db repoDid path cid
  cases findScamTerm_nil text with
  | inl h => simp [processScamMessage, h]
  | inr h => simp [processScamMessage, h]

/-- **C8** (confirmed): for a post whose text matches a term, whose
account is in neither ignore source, and for which the classifier
returns "bot-activity", the dispatcher attempts exactly one label
"bot-activity" using the post reference (a contentRef is available)
and adds the account to the durable ignore cache with a 30-day
expiry. -/
theorem c8_bot_activity_dispatch :
    ∀ (terms : List String) (env : ScamEnv) (now : Nat) (m : DbMap)
      (repoDid text path c t : String),
      findScamTerm terms text = some t → t ≠ "" →
      env.staticIgnore.contains (env.resolveHandle repoDid) = false →
      (isHandleIgnored now (some m) (env.resolveHandle repoDid)).1 = false →
      env.classifier (String.mk (text.data.take 100))
          = some "bot-activity" →
      (processScamMessage terms env now (some m) repoDid text path
          (some c)).2
        = [⟨LabelRef.post ("at://" ++ repoDid ++ "/" ++ path) (some c),
            ["bot-activity"]⟩] ∧
      (∃ m', (processScamMessage terms env now (some m) repoDid text path
          (some c)).1 = some m' ∧
        alistGet m' (env.resolveHandle repoDid)
          = some (now + 30 * msPerDay)) := by
  intro terms env now m repoDid text path c t hterm htne hstat hign hcls
  obtain ⟨m2, hm2⟩ := isHandleIgnored_db_some now m (env.resolveHandle repoDid)
  have hmain : processScamMessage terms env now (some m) repoDid text path
      (some c)
      = (addHandleToIgnoreList now
          (isHandleIgnored now (some m) (env.resolveHandle repoDid)).2
          (env.resolveHandle repoDid) 30,
        [⟨LabelRef.post ("at://" ++ repoDid ++ "/" ++ path) (some c),
          ["bot-activity"]⟩]) := by
    unfold processScamMessage
    rw [hterm]
    simp only [if_neg htne, hstat, Bool.false_eq_true, if_false, hign, hcls,
      handleScamClassification, applyLabelRef]
  rw [hmain, hm2]
  refine ⟨rfl, alistSet m2 (env.resolveHandle repoDid) (now + 30 * msPerDay),
    rfl, ?_⟩
  exact alistGet_set_self m2 (env.resolveHandle repoDid) (now + 30 * msPerDay)

/-- Witness for C8 at concrete inputs. -/
theorem c8_bot_activity_dispatch_witness :
    (processScamMessage ["pump"]
        ⟨fun d => d, [], fun _ => some "bot-activity"⟩ 0 (some [])
        "did:w" "big pump incoming right now" "app.bsky.feed.post/r9"
        (some "cid9")).2
      = [⟨LabelRef.post ("at://" ++ "did:w" ++ "/" ++ "app.bsky.feed.post/r9")
            (some "cid9"), ["bot-activity"]⟩] ∧
    (∃ m', (processScamMessage ["pump"]
        ⟨fun d => d, [], fun _ => some "bot-activity"⟩ 0 (some [])
        "did:w" "big pump incoming right now" "app.bsky.feed.post/r9"
        (some "cid9")).1 = some m' ∧
      alistGet m' "did:w" = some (0 + 30 * msPerDay)) :=
  c8_bot_activity_dispatch ["pump"]
    ⟨fun d => d, [], fun _ => some "bot-activity"⟩ 0 []
    "did:w" "big pump incoming right now" "app.bsky.feed.post/r9" "cid9"
    "pump" (by decide) (by decide) (by decide) (by decide) (by decide)

/-- **C2** (confirmed): within one window, processing an event whose
`rkey` is already in its entry's `postPaths` leaves the whole
duplicate-group map unchanged (occurrenceCount, uniquePostIds and posts
included), and after the build pass an entry's `occurrenceCount` never
exceeds the number of distinct `postId`s submitted for that
`(text, account)` pair. -/
theorem c2_idempotent_ingestion :
    (∀ (m : PostTextMap) (e : PostEvent) (a : AccountData),
      getEntry m e.text e.did = some a →
      a.postPaths.contains e.rkey = true →
      buildStep m e = m) ∧
    (∀ (events : List PostEvent) (text did : String) (a : AccountData),
      getEntry (buildMap events) text did = some a →
      a.count ≤ ((submittedRkeys events text did).dedup).length) := by
  constructor
  · intro m e a hget hmem
    by_cases hw : wordCount e.text < 5
    · simp only [buildStep, if_pos hw]
    · have hdm : ∃ dm, alistGet m e.text = some dm ∧
          alistGet dm e.did = some a := by
        unfold getEntry at hget
        cases hdm : alistGet m e.text with
        | none => rw [hdm] at hget; exact absurd hget (by simp)
        | some dm =>
          rw [hdm] at hget
          exact ⟨dm, rfl, hget⟩
      obtain ⟨dm, hdm, hda⟩ := hdm
      simp only [buildStep, if_neg hw, hdm, Option.getD_some, hda, hmem,
        if_true]
  · intro events text did a hget
    obtain ⟨h1, h2, h3⟩ := entryInv_buildMap events text did a hget
    have hsub : a.postPaths.toFinset ⊆
        (submittedRkeys events text did).toFinset := by
      intro r hr
      rw [List.mem_toFinset] at hr ⊢
      exact h3 r hr
    calc a.count = a.postPaths.length := h1
      _ = a.postPaths.toFinset.card := (List.toFinset_card_of_nodup h2).symm
      _ ≤ (submittedRkeys events text did).toFinset.card :=
          Finset.card_le_card hsub
      _ = ((submittedRkeys events text did).dedup).length := rfl

/-- Witness for C2 at concrete inputs. -/
theorem c2_idempotent_ingestion_witness :
    buildStep
        [("one two three four five",
          [("did:a", ⟨1, ["r1"], [⟨"at://did:a/app.bsky.feed.post/r1", none⟩]⟩)])]
        ⟨"did:a", "one two three four five", "r1", none⟩
      = [("one two three four five",
          [("did:a", ⟨1, ["r1"], [⟨"at://did:a/app.bsky.feed.post/r1", none⟩]⟩)])] ∧
    (⟨1, ["r1"], [⟨"at://did:a/app.bsky.feed.post/r1", none⟩]⟩
        : AccountData).count
      ≤ ((submittedRkeys [⟨"did:a", "one two three four five", "r1", none⟩,
          ⟨"did:a", "one two three four five", "r1", none⟩]
          "one two three four five" "did:a").dedup).length :=
  ⟨c2_idempotent_ingestion.1
      [("one two three four five",
        [("did:a", ⟨1, ["r1"], [⟨"at://did:a/app.bsky.feed.post/r1", none⟩]⟩)])]
      ⟨"did:a", "one two three four five", "r1", none⟩
      ⟨1, ["r1"], [⟨"at://did:a/app.bsky.feed.post/r1", none⟩]⟩
      (by decide) (by decide),
    c2_idempotent_ingestion.2
      [⟨"did:a", "one two three four five", "r1", none⟩,
       ⟨"did:a", "one two three four five", "r1", none⟩]
      "one two three four five" "did:a"
      ⟨1, ["r1"], [⟨"at://did:a/app.bsky.feed.post/r1", none⟩]⟩
      (by decide)⟩

/-- **C4** (counterexample): "buy now" has 2 whitespace-delimited
words, so the build phase discards all three events and the run emits
no aggregate log record (and no label attempts) — not the single
3-account record the claim asserts. -/
theorem c4_buy_now_counterexample :
    (processBufferedMessages defaultConfig (fun _ => true) 0
      ⟨false, [], []⟩
      [⟨"did:a", "buy now", "r1", none⟩,
       ⟨"did:b", "buy now", "r2", none⟩,
       ⟨"did:c", "buy now", "r3", none⟩]).2.multiLogs = [] ∧
    (processBufferedMessages defaultConfig (fun _ => true) 0
      ⟨false, [], []⟩
      [⟨"did:a", "buy now", "r1", none⟩,
       ⟨"did:b", "buy now", "r2", none⟩,
       ⟨"did:c", "buy now", "r3", none⟩]).2.labels = [] := by
  exact ⟨by decide, by decide⟩

/-- **C4** (amended, proved): with multi-account threshold 3, if three
distinct accounts each post one event with the same text of at least 5
whitespace-delimited words in one window, then the run's label attempts
are exactly one spam attempt per collected post and exactly one
aggregate log record naming all three accounts is emitted.  (A text of
fewer than 5 words, such as "buy now", is discarded by the build phase
before any grouping.) -/
theorem c4_cross_account_rule :
    ∀ (oracle : Oracle) (now : Nat) (d1 d2 d3 r1 r2 r3 text : String),
      d1 ≠ d2 → d1 ≠ d3 → d2 ≠ d3 → 5 ≤ wordCount text →
      ((processBufferedMessages defaultConfig oracle now ⟨false, [], []⟩
          [⟨d1, text, r1, none⟩, ⟨d2, text, r2, none⟩,
           ⟨d3, text, r3, none⟩]).2.labels
        = [spamPost ⟨"at://" ++ d1 ++ "/app.bsky.feed.post/" ++ r1, none⟩,
           spamPost ⟨"at://" ++ d2 ++ "/app.bsky.feed.post/" ++ r2, none⟩,
           spamPost ⟨"at://" ++ d3 ++ "/app.bsky.feed.post/" ++ r3, none⟩]) ∧
      ((processBufferedMessages defaultConfig oracle now ⟨false, [], []⟩
          [⟨d1, text, r1, none⟩, ⟨d2, text, r2, none⟩,
           ⟨d3, text, r3, none⟩]).2.multiLogs
        = [(text, [d1, d2, d3])]) := by
  intro oracle now d1 d2 d3 r1 r2 r3 text h12 h13 h23 h5
  have hw : ¬ wordCount text < 5 := Nat.not_lt.mpr h5
  have hbuild : buildMap
      [⟨d1, text, r1, none⟩, ⟨d2, text, r2, none⟩, ⟨d3, text, r3, none⟩]
      = [(text,
          [(d1, ⟨1, [r1],
            [⟨"at://" ++ d1 ++ "/app.bsky.feed.post/" ++ r1, none⟩]⟩),
           (d2, ⟨1, [r2],
            [⟨"at://" ++ d2 ++ "/app.bsky.feed.post/" ++ r2, none⟩]⟩),
           (d3, ⟨1, [r3],
            [⟨"at://" ++ d3 ++ "/app.bsky.feed.post/" ++ r3, none⟩]⟩)])] := by
    simp [buildMap, buildStep, hw, alistGet, alistSet, postUri,
      emptyAccountData, h12, h13, h23]
  have hrun : processBufferedMessages defaultConfig oracle now
      ⟨false, [], []⟩
      [⟨d1, text, r1, none⟩, ⟨d2, text, r2, none⟩, ⟨d3, text, r3, none⟩]
      = (⟨false, [], []⟩,
        ⟨[spamPost ⟨"at://" ++ d1 ++ "/app.bsky.feed.post/" ++ r1, none⟩,
          spamPost ⟨"at://" ++ d2 ++ "/app.bsky.feed.post/" ++ r2, none⟩,
          spamPost ⟨"at://" ++ d3 ++ "/app.bsky.feed.post/" ++ r3, none⟩],
         [(text, [d1, d2, d3])], []⟩) := by
    simp [processBufferedMessages, runBody, hbuild, evalGroup, evalAccounts,
      evalAccount, defaultConfig, Effects.empty, alistGetD, alistGet,
      spamPost]
  rw [hrun]
  exact ⟨rfl, rfl⟩

/-- Witness for C4 at concrete inputs. -/
theorem c4_cross_account_rule_witness :
    ((processBufferedMessages defaultConfig (fun _ => true) 0
        ⟨false, [], []⟩
        [⟨"did:a", "one two three four five", "r1", none⟩,
         ⟨"did:b", "one two three four five", "r2", none⟩,
         ⟨"did:c", "one two three four five", "r3", none⟩]).2.labels
      = [spamPost ⟨"at://" ++ "did:a" ++ "/app.bsky.feed.post/" ++ "r1", none⟩,
         spamPost ⟨"at://" ++ "did:b" ++ "/app.bsky.feed.post/" ++ "r2", none⟩,
         spamPost ⟨"at://" ++ "did:c" ++ "/app.bsky.feed.post/" ++ "r3",
           none⟩]) ∧
    ((processBufferedMessages defaultConfig (fun _ => true) 0
        ⟨false, [], []⟩
        [⟨"did:a", "one two three four five", "r1", none⟩,
         ⟨"did:b", "one two three four five", "r2", none⟩,
         ⟨"did:c", "one two three four five", "r3", none⟩]).2.multiLogs
      = [("one two three four five", ["did:a", "did:b", "did:c"])]) :=
  c4_cross_account_rule (fun _ => true) 0 "did:a" "did:b" "did:c"
    "r1" "r2" "r3" "one two three four five"
    (by decide) (by decide) (by decide) (by decide)

end ScamDetector
